import Mathlib

/-!
Verification of the virtual-machines-go-manage sample (example.go).

The development shallowly embeds the parts of the program that the
specification talks about:

* the local computations (OS-disk growth rule, DNS-label derivation,
  environment-variable lookup, the message formatting done by
  onErrorFail via fmt.Sprintf);
* the per-VM update payloads submitted by updateVM, attachDataDisk and
  detachDataDisks;
* the order of API calls issued by vmOperations, as an event trace;
* the concurrency structure of main and createNeededResources, as the
  set of interleavings of per-goroutine event sequences;
* the defer/os.Exit behaviour of main, as a sequential executor with a
  failure oracle.

Machine integers (Go int32) are embedded as Int with explicit wrapping
where the program can overflow.  Pointer-typed SDK fields are embedded
as Option.  Only the fields that the verified operations read or write
are modelled.
-/

/-! ## A model of the fragment of Go fmt used by the program

The program formats with verbs %s and %v only, applied to strings and
to a variadic []interface argument holding strings.  GoValue covers
exactly these operand shapes.  -/

/-- Operand of a Go fmt call: either a string, or a variadic
[]interface slice holding strings (the shape produced by passing a
variadic parameter without spreading it). -/
inductive GoValue where
  | str (s : String)
  | strSlice (vs : List String)
deriving DecidableEq, Repr

/-- How Go fmt renders an operand under %s or %v: strings print bare,
slices print bracketed with space-separated elements. -/
def GoValue.render : GoValue → String
  | GoValue.str s => s
  | GoValue.strSlice vs => "[" ++ String.intercalate " " vs ++ "]"

/-- Go type name of an operand, as printed in EXTRA diagnostics. -/
def GoValue.typeName : GoValue → String
  | GoValue.str _ => "string"
  | GoValue.strSlice _ => "[]interface \x7b\x7d"

/-- Rendering of leftover operands in a %!(EXTRA ...) diagnostic:
comma-separated type=value pairs. -/
def goExtraList : List GoValue → String
  | [] => ""
  | [v] => v.typeName ++ "=" ++ v.render
  | v :: vs => v.typeName ++ "=" ++ v.render ++ ", " ++ goExtraList vs

/-- Core of the fmt model: walk the format string, substituting each
%s or %v verb with the next operand; leftover operands yield an
EXTRA diagnostic and missing operands a MISSING diagnostic, as in Go. -/
def goSprintfAux : List Char → List GoValue → String
  | [], [] => ""
  | [], v :: vs => "%!(EXTRA " ++ goExtraList (v :: vs) ++ ")"
  | '%' :: 's' :: cs, v :: vs => v.render ++ goSprintfAux cs vs
  | '%' :: 's' :: cs, [] => "%!s(MISSING)" ++ goSprintfAux cs []
  | '%' :: 'v' :: cs, v :: vs => v.render ++ goSprintfAux cs vs
  | '%' :: 'v' :: cs, [] => "%!v(MISSING)" ++ goSprintfAux cs []
  | c :: cs, vs => String.singleton c ++ goSprintfAux cs vs

/-- Model of fmt.Sprintf restricted to the verbs and operand shapes the
program uses. -/
def goSprintf (format : String) (args : List GoValue) : String :=
  goSprintfAux format.toList args

/-! ## Constants of the program -/

def vhdURItemplate : String := "https://%s.blob.core.windows.net/golangcontainer/%s.vhd"

def linuxVMname : String := "linuxVM"

def windowsVMname : String := "windowsVM"

def accountName : String := "golangrocksonazure"

/-! ## onErrorFail and getEnvVarOrExit -/

/-- The string printed by onErrorFail for a failed call: the source
computes fmt.Sprintf(message, a) — passing the variadic slice a as a
single operand, not spread — and then prints it, a colon-space, and the
error text. -/
def onErrorFail_line (errText : String) (message : String) (a : List String) : String :=
  goSprintf "%s: %s\n"
    [GoValue.str (goSprintf message [GoValue.strSlice a]), GoValue.str errText]

/-- Behaviour of onErrorFail: for a nil error it does nothing; for a
non-nil error it produces the printed line and exit status 1. -/
def onErrorFail_output (err : Option String) (message : String) (a : List String) :
    Option (String × Nat) :=
  match err with
  | none => none
  | some e => some (onErrorFail_line e message a, 1)

/-- The line the specification expects onErrorFail to print: the
context message with its format arguments actually substituted
(fmt.Sprintf(message, a...)), then colon-space and the error text. -/
def specOnErrorFail_line (errText : String) (message : String) (a : List String) : String :=
  goSprintf "%s: %s\n"
    [GoValue.str (goSprintf message (a.map GoValue.str)), GoValue.str errText]

/-- Model of getEnvVarOrExit: os.Getenv is a total map from names to
strings in which an absent variable reads as the empty string; an empty
value prints the missing-variable message and exits with status 1,
otherwise the value is returned. -/
def getEnvVarOrExit (env : String → String) (varName : String) :
    Except (String × Nat) String :=
  if env varName = "" then
    Except.error (goSprintf "Missing environment variable %s\n" [GoValue.str varName], 1)
  else
    Except.ok (env varName)

/-! ## The OS-disk growth rule (updateOSdiskSize)

DiskSizeGB is a pointer to int32 in the source.  A nil pointer is first
replaced by 0; after the deallocate call, a non-positive value is
floored to 256, and then 10 is added with int32 arithmetic (which
wraps). -/

/-- Wrapping of an integer into the int32 range, as Go int32 addition
does on overflow. -/
def wrap32 (x : Int) : Int := (x + 2 ^ 31) % 2 ^ 32 - 2 ^ 31

/-- The new OS-disk size computed by updateOSdiskSize and pushed in its
update call, as a function of the prior DiskSizeGB pointer value. -/
def updateOSdiskSize_newSize (s : Option Int) : Int :=
  let s0 : Int := match s with | none => 0 | some v => v
  let s1 : Int := if s0 ≤ 0 then 256 else s0
  wrap32 (s1 + 10)

/-! ## The DNS label derived by createPIPandNIC

The source computes strings.ToLower(machine[:5]); the slice panics when
the machine name is shorter than five characters, which the embedding
renders as none.  The names used by the program are ASCII, so byte and
character indexing coincide. -/

/-- Model of strings.ToLower for the ASCII names used here, over the
character list of the string. -/
def goToLower (s : String) : String := String.mk (s.data.map Char.toLower)

/-- Model of the Go slice machine[:n] for the ASCII names used here,
over the character list of the string. -/
def goTake (s : String) (n : Nat) : String := String.mk (s.data.take n)

/-- DNS label computed by createPIPandNIC for a machine name, none when
the five-character slice is out of bounds. -/
def createPIPandNIC_dnsLabel (machine : String) : Option String :=
  if 5 ≤ machine.length then
    some (goSprintf "azuresample-%s" [GoValue.str (goToLower (goTake machine 5))])
  else
    none

/-! ## The VM update payloads

The SDK types use pointer fields; nil pointers are embedded as none.
Only the fields read or written by the verified operations (tags, the
data-disk list, the OS-disk size) are modelled. -/

/-- Disk creation mode used by the program. -/
inductive DiskCreateOption where
  | empty
  | fromImage
deriving DecidableEq, Repr

/-- A virtual hard disk reference (a blob URI). -/
structure VirtualHardDisk where
  uri : Option String
deriving DecidableEq, Repr

/-- A data disk as submitted by the program. -/
structure DataDisk where
  lun : Option Int
  name : Option String
  vhd : Option VirtualHardDisk
  createOption : DiskCreateOption
  diskSizeGB : Option Int
deriving DecidableEq, Repr

/-- The storage profile fields touched by the operations. -/
structure StorageProfile where
  osDiskSizeGB : Option Int
  dataDisks : Option (List DataDisk)
deriving DecidableEq, Repr

/-- The VM fields touched by the operations.  Tags is a pointer to a
map, embedded as an association list in source order. -/
structure VirtualMachine where
  tags : Option (List (String × String))
  storageProfile : StorageProfile
deriving DecidableEq, Repr

/-- Payload submitted by updateVM: the fetched VM with its Tags field
overwritten by the fixed two-entry map literal. -/
def updateVM (vm : VirtualMachine) : VirtualMachine :=
  { vm with tags := some [("who rocks", "golang"), ("where", "on azure")] }

/-- Payload submitted by attachDataDisk: the VM with its data-disk list
overwritten by a single new disk at LUN 0 named dataDisk of 1 GB,
backed by a blob URI built from the VHD URI template. -/
def attachDataDisk (vmName : String) (vm : VirtualMachine) : VirtualMachine :=
  { vm with storageProfile :=
    { vm.storageProfile with dataDisks := some [
      { lun := some 0
        name := some "dataDisk"
        vhd := some { uri := some (goSprintf vhdURItemplate
          [GoValue.str accountName,
           GoValue.str (goSprintf "dataDisks-%v" [GoValue.str vmName])]) }
        createOption := DiskCreateOption.empty
        diskSizeGB := some 1 }] } }

/-- Payload submitted by detachDataDisks: the VM with its data-disk
list overwritten by the empty list. -/
def detachDataDisks (vm : VirtualMachine) : VirtualMachine :=
  { vm with storageProfile := { vm.storageProfile with dataDisks := some [] } }

/-! ## The order of calls issued by vmOperations

Each SDK call in the source returns a channel and the code immediately
receives from it through onErrorFail, so every call completes (or kills
the process) before the next statement runs.  A call is embedded as an
issue event followed by a completion event. -/

/-- The VM API calls issued during the operations phase. -/
inductive VMOpCall where
  | vmGet
  | vmUpdateTags
  | vmAttachDisk
  | vmDetachDisks
  | vmDeallocate
  | vmUpdateSize
  | vmStart
  | vmRestart
  | vmPowerOff
deriving DecidableEq, Repr

/-- Issue and completion events of a call. -/
inductive CallEv where
  | issue (c : VMOpCall)
  | complete (c : VMOpCall)
deriving DecidableEq, Repr

/-- Calls made by getVM: one Get, awaited inline. -/
def getVM_trace : List CallEv := [CallEv.issue VMOpCall.vmGet, CallEv.complete VMOpCall.vmGet]

/-- Calls made by updateVM: one CreateOrUpdate carrying the tag map. -/
def updateVM_trace : List CallEv :=
  [CallEv.issue VMOpCall.vmUpdateTags, CallEv.complete VMOpCall.vmUpdateTags]

/-- Calls made by attachDataDisk: one CreateOrUpdate carrying the new disk. -/
def attachDataDisk_trace : List CallEv :=
  [CallEv.issue VMOpCall.vmAttachDisk, CallEv.complete VMOpCall.vmAttachDisk]

/-- Calls made by detachDataDisks: one CreateOrUpdate carrying the empty list. -/
def detachDataDisks_trace : List CallEv :=
  [CallEv.issue VMOpCall.vmDetachDisks, CallEv.complete VMOpCall.vmDetachDisks]

/-- Calls made by updateOSdiskSize: Deallocate, awaited, then the
CreateOrUpdate pushing the recomputed size, awaited. -/
def updateOSdiskSize_trace : List CallEv :=
  [CallEv.issue VMOpCall.vmDeallocate, CallEv.complete VMOpCall.vmDeallocate,
   CallEv.issue VMOpCall.vmUpdateSize, CallEv.complete VMOpCall.vmUpdateSize]

/-- Calls made by startVM. -/
def startVM_trace : List CallEv := [CallEv.issue VMOpCall.vmStart, CallEv.complete VMOpCall.vmStart]

/-- Calls made by restartVM. -/
def restartVM_trace : List CallEv :=
  [CallEv.issue VMOpCall.vmRestart, CallEv.complete VMOpCall.vmRestart]

/-- Calls made by stopVM: one PowerOff. -/
def stopVM_trace : List CallEv :=
  [CallEv.issue VMOpCall.vmPowerOff, CallEv.complete VMOpCall.vmPowerOff]

/-- The call trace of vmOperations on the success path, assembled from
its callees in source order. -/
def vmOperations_trace : List CallEv :=
  getVM_trace ++ updateVM_trace ++ attachDataDisk_trace ++ detachDataDisks_trace ++
    updateOSdiskSize_trace ++ startVM_trace ++ restartVM_trace ++ stopVM_trace

/-- The sequence of calls vmOperations attempts, in source order. -/
def vmOperations_calls : List VMOpCall :=
  [VMOpCall.vmGet, VMOpCall.vmUpdateTags, VMOpCall.vmAttachDisk, VMOpCall.vmDetachDisks,
   VMOpCall.vmDeallocate, VMOpCall.vmUpdateSize, VMOpCall.vmStart, VMOpCall.vmRestart,
   VMOpCall.vmPowerOff]

/-- Executor for a sequential chain of awaited calls under a failure
oracle: each call is issued and completes; a failing completion makes
onErrorFail exit the process, so nothing further is issued. -/
def runCallEvs (fails : VMOpCall → Bool) : List VMOpCall → List CallEv
  | [] => []
  | c :: cs =>
    CallEv.issue c :: CallEv.complete c :: (if fails c then [] else runCallEvs fails cs)

/-- The call trace of vmOperations under a failure oracle. -/
def vmOperations_traceWith (fails : VMOpCall → Bool) : List CallEv :=
  runCallEvs fails vmOperations_calls

/-! ## Interleaving semantics for the goroutine structure

A trace of the whole process is an interleaving of the per-goroutine
event sequences, subject to the constraint that a goroutine runs only
after the statement that spawns it.  The checker below decides whether
a trace interleaves two given sequences. -/

/-- Decides whether zs is an interleaving of xs and ys: every event of
zs is the next event of exactly one of the two sequences, and both are
consumed completely. -/
def interleaves [DecidableEq α] : List α → List α → List α → Bool
  | xs, ys, [] => xs.isEmpty && ys.isEmpty
  | xs, ys, z :: zs =>
    (match xs with
     | x :: xs2 => if x = z then interleaves xs2 ys zs else false
     | [] => false)
    ||
    (match ys with
     | y :: ys2 => if y = z then interleaves xs ys2 zs else false
     | [] => false)

/-- A sequence is a subsequence of any of its interleavings (left). -/
theorem interleaves_sublist_left [DecidableEq α] :
    ∀ (zs xs ys : List α), interleaves xs ys zs = true → List.Sublist xs zs := by
  intro zs
  induction zs with
  | nil =>
    intro xs ys h
    simp only [interleaves, Bool.and_eq_true, List.isEmpty_iff] at h
    rw [h.1]
  | cons z zs ih =>
    intro xs ys h
    simp only [interleaves, Bool.or_eq_true] at h
    rcases h with h | h
    · match xs with
      | [] => simp at h
      | x :: xs2 =>
        simp only at h
        split at h
        · rename_i hx
          subst hx
          exact List.Sublist.cons₂ x (ih xs2 ys h)
        · exact absurd h (by simp)
    · match ys with
      | [] => simp at h
      | y :: ys2 =>
        simp only at h
        split at h
        · exact List.Sublist.cons z (ih xs ys2 h)
        · exact absurd h (by simp)

/-- A sequence is a subsequence of any of its interleavings (right). -/
theorem interleaves_sublist_right [DecidableEq α] :
    ∀ (zs xs ys : List α), interleaves xs ys zs = true → List.Sublist ys zs := by
  intro zs
  induction zs with
  | nil =>
    intro xs ys h
    simp only [interleaves, Bool.and_eq_true, List.isEmpty_iff] at h
    rw [h.2]
  | cons z zs ih =>
    intro xs ys h
    simp only [interleaves, Bool.or_eq_true] at h
    rcases h with h | h
    · match xs with
      | [] => simp at h
      | x :: xs2 =>
        simp only at h
        split at h
        · exact List.Sublist.cons z (ih xs2 ys h)
        · exact absurd h (by simp)
    · match ys with
      | [] => simp at h
      | y :: ys2 =>
        simp only at h
        split at h
        · rename_i hy
          subst hy
          exact List.Sublist.cons₂ y (ih xs ys2 h)
        · exact absurd h (by simp)

/-- An interleaving is a permutation of the two sequences appended. -/
theorem interleaves_perm [DecidableEq α] :
    ∀ (zs xs ys : List α), interleaves xs ys zs = true → List.Perm zs (xs ++ ys) := by
  intro zs
  induction zs with
  | nil =>
    intro xs ys h
    simp only [interleaves, Bool.and_eq_true, List.isEmpty_iff] at h
    rw [h.1, h.2]
    exact List.Perm.refl []
  | cons z zs ih =>
    intro xs ys h
    simp only [interleaves, Bool.or_eq_true] at h
    rcases h with h | h
    · match xs with
      | [] => simp at h
      | x :: xs2 =>
        simp only at h
        split at h
        · rename_i hx
          subst hx
          exact (ih xs2 ys h).cons x
        · exact absurd h (by simp)
    · match ys with
      | [] => simp at h
      | y :: ys2 =>
        simp only at h
        split at h
        · rename_i hy
          subst hy
          exact List.Perm.trans ((ih xs ys2 h).cons y) List.perm_middle.symm
        · exact absurd h (by simp)

/-- Precedence of events is transitive in a duplicate-free trace: if a
occurs before b and b occurs before c, then a occurs before c. -/
theorem sublist_pair_trans {α : Type} {a b c : α} :
    ∀ t : List α, t.Nodup → List.Sublist [a, b] t → List.Sublist [b, c] t →
      List.Sublist [a, c] t := by
  intro t
  induction t with
  | nil =>
    intro _ hab _
    cases hab
  | cons x t ih =>
    intro hnd hab hbc
    rw [List.nodup_cons] at hnd
    obtain ⟨hx, hnd2⟩ := hnd
    cases hab with
    | cons _ hab2 =>
      cases hbc with
      | cons _ hbc2 => exact List.Sublist.cons _ (ih hnd2 hab2 hbc2)
      | cons₂ _ hbc2 =>
        exact absurd (hab2.subset (by simp)) hx
    | cons₂ _ hab2 =>
      cases hbc with
      | cons _ hbc2 =>
        have hc : c ∈ t := hbc2.subset (by simp)
        exact List.Sublist.cons₂ _ (List.singleton_sublist.mpr hc)
      | cons₂ _ hbc2 =>
        exact absurd (List.singleton_sublist.mp hab2) hx

/-! ## Events of createNeededResources

The main path creates the resource group, spawns the storage goroutine,
then creates and awaits the virtual network, creates and awaits the
subnet, fetches the subnet and returns.  The storage goroutine issues
the storage-account creation and awaits its completion.  Each event
named Done is the receipt of the completion signal of the preceding
call. -/

/-- Events of createNeededResources and its storage goroutine. -/
inductive CNREvent where
  | rgCreate
  | spawnStorage
  | vnetCreate
  | vnetDone
  | subnetCreate
  | subnetDone
  | subnetGet
  | ret
  | storageCreate
  | storageDone
deriving DecidableEq, Repr

/-- Event sequence of the main path of createNeededResources. -/
def cnrMainSeq : List CNREvent :=
  [CNREvent.rgCreate, CNREvent.spawnStorage, CNREvent.vnetCreate, CNREvent.vnetDone,
   CNREvent.subnetCreate, CNREvent.subnetDone, CNREvent.subnetGet, CNREvent.ret]

/-- Event sequence of the storage goroutine. -/
def cnrStorageSeq : List CNREvent := [CNREvent.storageCreate, CNREvent.storageDone]

/-- Valid complete traces of createNeededResources: interleavings of
the two goroutines in which the storage goroutine starts only after it
is spawned. -/
def ValidCNRTrace (t : List CNREvent) : Prop :=
  interleaves cnrMainSeq cnrStorageSeq t = true ∧
    List.Sublist [CNREvent.spawnStorage, CNREvent.storageCreate] t

/-- A valid trace in which createNeededResources returns before the
storage account creation has even been issued. -/
def cnrEarlyReturnTrace : List CNREvent :=
  [CNREvent.rgCreate, CNREvent.spawnStorage, CNREvent.vnetCreate, CNREvent.vnetDone,
   CNREvent.subnetCreate, CNREvent.subnetDone, CNREvent.subnetGet, CNREvent.ret,
   CNREvent.storageCreate, CNREvent.storageDone]

/-- A valid trace in which the storage path completes before return. -/
def cnrJoinedTrace : List CNREvent :=
  [CNREvent.rgCreate, CNREvent.spawnStorage, CNREvent.storageCreate, CNREvent.storageDone,
   CNREvent.vnetCreate, CNREvent.vnetDone, CNREvent.subnetCreate, CNREvent.subnetDone,
   CNREvent.subnetGet, CNREvent.ret]

/-! ## Events of the VM-creation and operations phases of main

Main spawns the Linux createVM goroutine, runs the Windows createVM
inline, prompts the operator, spawns the Linux vmOperations goroutine
and runs the Windows vmOperations inline.  createVM issues five awaited
calls (public IP create and get, NIC create and get, VM create);
vmOperations issues nine awaited calls.  -/

/-- Events of the creation and operations phases of main. -/
inductive MainEvent where
  | spawnLinuxCreate
  | wPipCreate
  | wPipGet
  | wNicCreate
  | wNicGet
  | wVMCreate
  | prompt
  | spawnLinuxOps
  | wVMGet
  | wTagUpdate
  | wAttach
  | wDetach
  | wDeallocate
  | wSizeUpdate
  | wStart
  | wRestart
  | wStop
  | lPipCreate
  | lPipGet
  | lNicCreate
  | lNicGet
  | lVMCreate
  | lVMGet
  | lTagUpdate
  | lAttach
  | lDetach
  | lDeallocate
  | lSizeUpdate
  | lStart
  | lRestart
  | lStop
deriving DecidableEq, Repr

/-- Event sequence of the main goroutine from the VM-creation phase
through the end of the Windows operations sequence. -/
def mainThreadSeq : List MainEvent :=
  [MainEvent.spawnLinuxCreate, MainEvent.wPipCreate, MainEvent.wPipGet, MainEvent.wNicCreate,
   MainEvent.wNicGet, MainEvent.wVMCreate, MainEvent.prompt, MainEvent.spawnLinuxOps,
   MainEvent.wVMGet, MainEvent.wTagUpdate, MainEvent.wAttach, MainEvent.wDetach,
   MainEvent.wDeallocate, MainEvent.wSizeUpdate, MainEvent.wStart, MainEvent.wRestart,
   MainEvent.wStop]

/-- Event sequence of the Linux createVM goroutine. -/
def linuxCreateSeq : List MainEvent :=
  [MainEvent.lPipCreate, MainEvent.lPipGet, MainEvent.lNicCreate, MainEvent.lNicGet,
   MainEvent.lVMCreate]

/-- Event sequence of the Linux vmOperations goroutine. -/
def linuxOpsSeq : List MainEvent :=
  [MainEvent.lVMGet, MainEvent.lTagUpdate, MainEvent.lAttach, MainEvent.lDetach,
   MainEvent.lDeallocate, MainEvent.lSizeUpdate, MainEvent.lStart, MainEvent.lRestart,
   MainEvent.lStop]

/-- The VM-operation calls of this phase, for both machines. -/
def vmOperationCallEvents : List MainEvent :=
  [MainEvent.wVMGet, MainEvent.wTagUpdate, MainEvent.wAttach, MainEvent.wDetach,
   MainEvent.wDeallocate, MainEvent.wSizeUpdate, MainEvent.wStart, MainEvent.wRestart,
   MainEvent.wStop, MainEvent.lVMGet, MainEvent.lTagUpdate, MainEvent.lAttach,
   MainEvent.lDetach, MainEvent.lDeallocate, MainEvent.lSizeUpdate, MainEvent.lStart,
   MainEvent.lRestart, MainEvent.lStop]

/-- The VM-operation calls issued by the main goroutine itself. -/
def windowsOpCallEvents : List MainEvent :=
  [MainEvent.wVMGet, MainEvent.wTagUpdate, MainEvent.wAttach, MainEvent.wDetach,
   MainEvent.wDeallocate, MainEvent.wSizeUpdate, MainEvent.wStart, MainEvent.wRestart,
   MainEvent.wStop]

/-- Valid complete traces of this phase of main: three-way
interleavings of the main goroutine, the Linux createVM goroutine and
the Linux vmOperations goroutine, each goroutine starting only after
its spawn event. -/
def ValidMainTrace (t : List MainEvent) : Prop :=
  ∃ u : List MainEvent,
    interleaves mainThreadSeq linuxCreateSeq u = true ∧
    interleaves u linuxOpsSeq t = true ∧
    List.Sublist [MainEvent.spawnLinuxCreate, MainEvent.lPipCreate] t ∧
    List.Sublist [MainEvent.spawnLinuxOps, MainEvent.lVMGet] t

/-- An intermediate interleaving in which the whole main goroutine runs
before the Linux createVM goroutine. -/
def mainSlowLinuxU : List MainEvent := mainThreadSeq ++ linuxCreateSeq

/-- A valid trace in which every Windows operation call is issued
before the Linux VM creation completes. -/
def mainSlowLinuxTrace : List MainEvent := mainThreadSeq ++ linuxCreateSeq ++ linuxOpsSeq

/-- A valid trace in which both creations complete before any
operation call. -/
def mainJoinedTrace : List MainEvent :=
  [MainEvent.spawnLinuxCreate, MainEvent.lPipCreate, MainEvent.lPipGet, MainEvent.lNicCreate,
   MainEvent.lNicGet, MainEvent.lVMCreate, MainEvent.wPipCreate, MainEvent.wPipGet,
   MainEvent.wNicCreate, MainEvent.wNicGet, MainEvent.wVMCreate, MainEvent.prompt,
   MainEvent.spawnLinuxOps, MainEvent.wVMGet, MainEvent.wTagUpdate, MainEvent.wAttach,
   MainEvent.wDetach, MainEvent.wDeallocate, MainEvent.wSizeUpdate, MainEvent.wStart,
   MainEvent.wRestart, MainEvent.wStop, MainEvent.lVMGet, MainEvent.lTagUpdate,
   MainEvent.lAttach, MainEvent.lDetach, MainEvent.lDeallocate, MainEvent.lSizeUpdate,
   MainEvent.lStart, MainEvent.lRestart, MainEvent.lStop]

/-! ## The main-thread execution with defer and os.Exit

Main registers a deferred resource-group deletion right after
createNeededResources returns, then runs a straight-line chain of
awaited API calls (its own goroutine only; the spawned goroutines issue
their calls independently).  Every failed call is routed through
onErrorFail, which terminates the process with os.Exit(1); os.Exit does
not run deferred functions, so the deferred deletion runs only when
main returns normally. -/

/-- The API calls issued by the main goroutine, in source order. -/
inductive APICall where
  | rgCreate
  | vnetCreate
  | subnetCreate
  | subnetGet
  | pipCreate
  | pipGet
  | nicCreate
  | nicGet
  | vmCreate
  | vmGet
  | vmUpdateTags
  | vmAttachDisk
  | vmDetachDisks
  | vmDeallocate
  | vmUpdateSize
  | vmStart
  | vmRestart
  | vmPowerOff
  | listAll
  | vmDelete
  | rgDelete
deriving DecidableEq, Repr

/-- The straight-line chain of awaited API calls of the main goroutine:
createNeededResources, the Windows createVM, the Windows vmOperations,
listVMs, the Windows deleteVM, and the explicit resource-group
deletion. -/
def mainBody : List APICall :=
  [APICall.rgCreate, APICall.vnetCreate, APICall.subnetCreate, APICall.subnetGet,
   APICall.pipCreate, APICall.pipGet, APICall.nicCreate, APICall.nicGet, APICall.vmCreate,
   APICall.vmGet, APICall.vmUpdateTags, APICall.vmAttachDisk, APICall.vmDetachDisks,
   APICall.vmDeallocate, APICall.vmUpdateSize, APICall.vmStart, APICall.vmRestart,
   APICall.vmPowerOff, APICall.listAll, APICall.vmDelete, APICall.rgDelete]

/-- The calls of mainBody that precede the per-VM deletion. -/
def mainCallsBeforeDelete : List APICall :=
  [APICall.rgCreate, APICall.vnetCreate, APICall.subnetCreate, APICall.subnetGet,
   APICall.pipCreate, APICall.pipGet, APICall.nicCreate, APICall.nicGet, APICall.vmCreate,
   APICall.vmGet, APICall.vmUpdateTags, APICall.vmAttachDisk, APICall.vmDetachDisks,
   APICall.vmDeallocate, APICall.vmUpdateSize, APICall.vmStart, APICall.vmRestart,
   APICall.vmPowerOff, APICall.listAll]

/-- Runs a chain of awaited calls under a failure oracle.  Returns the
calls attempted and whether the chain completed; onErrorFail stops the
chain at the first failing call. -/
def runChain (fails : APICall → Bool) : List APICall → List APICall × Bool
  | [] => ([], true)
  | c :: cs =>
    if fails c then ([c], false)
    else
      let r := runChain fails cs
      (c :: r.1, r.2)

/-- Executes the main goroutine under a failure oracle: on normal
return the deferred resource-group deletion runs and the process exits
with status 0; on a failed call os.Exit(1) fires, skipping the deferred
deletion.  Returns the attempted calls and the exit status. -/
def runMain (fails : APICall → Bool) : List APICall × Nat :=
  let r := runChain fails mainBody
  if r.2 then (r.1 ++ [APICall.rgDelete], 0) else (r.1, 1)

/-- The failure oracle in which exactly the per-VM deletion fails. -/
def failsAtVMDelete : APICall → Bool := fun c => c = APICall.vmDelete

/-- An intermediate interleaving for the joined trace: the Linux
createVM goroutine runs to completion right after being spawned. -/
def mainJoinedU : List MainEvent :=
  [MainEvent.spawnLinuxCreate, MainEvent.lPipCreate, MainEvent.lPipGet, MainEvent.lNicCreate,
   MainEvent.lNicGet, MainEvent.lVMCreate, MainEvent.wPipCreate, MainEvent.wPipGet,
   MainEvent.wNicCreate, MainEvent.wNicGet, MainEvent.wVMCreate, MainEvent.prompt,
   MainEvent.spawnLinuxOps, MainEvent.wVMGet, MainEvent.wTagUpdate, MainEvent.wAttach,
   MainEvent.wDetach, MainEvent.wDeallocate, MainEvent.wSizeUpdate, MainEvent.wStart,
   MainEvent.wRestart, MainEvent.wStop]

/-- A concrete environment in which the subscription variable is set
and every other variable reads as empty. -/
def envWitness : String → String :=
  fun v => if v = "AZURE_SUBSCRIPTION_ID" then "sub-id" else ""

/-! ## Helper lemmas -/

/-- Formatting azuresample-%s with a single string operand appends the
operand to the literal. -/
theorem goSprintf_azuresample (x : String) :
    goSprintf "azuresample-%s" [GoValue.str x] = "azuresample-" ++ x := by
  apply String.ext
  simp [goSprintf, goSprintfAux, GoValue.render, String.singleton]

/-- Formatting the missing-variable message with a single string
operand appends the operand between the two literals. -/
theorem goSprintf_missing_env (x : String) :
    goSprintf "Missing environment variable %s\n" [GoValue.str x] =
      "Missing environment variable " ++ x ++ "\n" := by
  apply String.ext
  simp [goSprintf, goSprintfAux, GoValue.render, String.singleton]

/-- A chain run under any failure oracle is an initial segment of the
chain run with no failures. -/
theorem runCallEvs_extends (fails : VMOpCall → Bool) :
    ∀ cs : List VMOpCall,
      ∃ r : List CallEv, runCallEvs (fun _ => false) cs = runCallEvs fails cs ++ r := by
  intro cs
  induction cs with
  | nil => exact ⟨[], rfl⟩
  | cons c cs ih =>
    by_cases h : fails c = true
    · exact ⟨runCallEvs (fun _ => false) cs, by simp [runCallEvs, h]⟩
    · obtain ⟨r, hr⟩ := ih
      refine ⟨r, ?_⟩
      simp only [Bool.not_eq_true] at h
      simp [runCallEvs, h, hr]

/-! ## Claims -/

/-- C1, counterexample: the claim that the pushed size equals s + 10
for every positive prior size s fails on the code at the int32
maximum, where the increment wraps. -/
theorem updateOSdiskSize_overflow_cex :
    updateOSdiskSize_newSize (some 2147483647) = -2147483639 ∧
      ¬ updateOSdiskSize_newSize (some 2147483647) = 2147483647 + 10 := by
  decide

/-- C1, amended: for every prior OS-disk size s in int32 range, the
pushed size is 266 when s is nil or s ≤ 0, and s + 10 when s > 0 and
s + 10 still fits in int32; in particular nil gives 266, 0 gives 266,
256 gives 266 and 500 gives 510. -/
theorem updateOSdiskSize_growth :
    (∀ s : Int, s ≤ 0 → updateOSdiskSize_newSize (some s) = 266) ∧
    updateOSdiskSize_newSize none = 266 ∧
    (∀ s : Int, 0 < s → s + 10 < 2 ^ 31 → updateOSdiskSize_newSize (some s) = s + 10) ∧
    updateOSdiskSize_newSize (some 0) = 266 ∧
    updateOSdiskSize_newSize (some 256) = 266 ∧
    updateOSdiskSize_newSize (some 500) = 510 := by
  refine ⟨?_, by decide, ?_, by decide, by decide, by decide⟩
  · intro s hs
    have e : updateOSdiskSize_newSize (some s) =
        wrap32 ((if s ≤ 0 then (256 : Int) else s) + 10) := rfl
    rw [e, if_pos hs]
    decide
  · intro s h1 h2
    have e : updateOSdiskSize_newSize (some s) =
        wrap32 ((if s ≤ 0 then (256 : Int) else s) + 10) := rfl
    rw [e, if_neg (by omega)]
    unfold wrap32
    omega

/-- C1, witness: the amended growth rule evaluated at size 500. -/
theorem updateOSdiskSize_growth_witness :
    ((0 : Int) < 500 ∧ (500 : Int) + 10 < 2 ^ 31) ∧
      updateOSdiskSize_newSize (some 500) = 500 + 10 :=
  ⟨⟨by decide, by decide⟩, updateOSdiskSize_growth.2.2.1 500 (by decide) (by decide)⟩

/-- C5: for every fetched VM, the tag map submitted by updateVM is
exactly the two-entry map who-rocks/golang, where/on-azure, and it is
independent of whatever tags the VM carried before. -/
theorem updateVM_tags_exact :
    ∀ vm : VirtualMachine,
      (updateVM vm).tags = some [("who rocks", "golang"), ("where", "on azure")] ∧
      ∀ vm2 : VirtualMachine, (updateVM vm).tags = (updateVM vm2).tags :=
  fun _ => ⟨rfl, fun _ => rfl⟩

/-- C6: after attachDataDisk the submitted data-disk list has exactly
one entry, with LUN 0, name dataDisk and size 1 GB; after the
subsequent detachDataDisks the submitted list is empty. -/
theorem dataDisk_lifecycle :
    ∀ (vmName : String) (vm : VirtualMachine),
      (∃ d : DataDisk,
        (attachDataDisk vmName vm).storageProfile.dataDisks = some [d] ∧
        d.lun = some 0 ∧ d.name = some "dataDisk" ∧ d.diskSizeGB = some 1) ∧
      (detachDataDisks (attachDataDisk vmName vm)).storageProfile.dataDisks = some [] :=
  fun _ _ => ⟨⟨_, rfl, rfl, rfl, rfl⟩, rfl⟩

/-- C7: vmOperations issues its calls in exactly the order get, tag
update, disk attach, disk detach, deallocate, size update, start,
restart, power off, each call completing before the next is issued;
and under any failure oracle the attempted trace is an initial segment
of this one, so nothing is issued past a failed call. -/
theorem vmOperations_order :
    vmOperations_trace =
      [CallEv.issue VMOpCall.vmGet, CallEv.complete VMOpCall.vmGet,
       CallEv.issue VMOpCall.vmUpdateTags, CallEv.complete VMOpCall.vmUpdateTags,
       CallEv.issue VMOpCall.vmAttachDisk, CallEv.complete VMOpCall.vmAttachDisk,
       CallEv.issue VMOpCall.vmDetachDisks, CallEv.complete VMOpCall.vmDetachDisks,
       CallEv.issue VMOpCall.vmDeallocate, CallEv.complete VMOpCall.vmDeallocate,
       CallEv.issue VMOpCall.vmUpdateSize, CallEv.complete VMOpCall.vmUpdateSize,
       CallEv.issue VMOpCall.vmStart, CallEv.complete VMOpCall.vmStart,
       CallEv.issue VMOpCall.vmRestart, CallEv.complete VMOpCall.vmRestart,
       CallEv.issue VMOpCall.vmPowerOff, CallEv.complete VMOpCall.vmPowerOff] ∧
    (∀ fails : VMOpCall → Bool, ∃ rest : List CallEv,
      vmOperations_trace = vmOperations_traceWith fails ++ rest) := by
  constructor
  · decide
  · intro fails
    have h1 : vmOperations_trace = vmOperations_traceWith (fun _ => false) := by decide
    rw [h1]
    exact runCallEvs_extends fails vmOperations_calls

/-- C2, counterexample: a valid complete trace of createNeededResources
in which the function returns before the storage-account creation has
completed (indeed before it has even been issued), refuting the claim
that both creation paths are joined before the subnet is returned. -/
theorem createNeededResources_no_join_cex :
    ValidCNRTrace cnrEarlyReturnTrace ∧
      ¬ List.Sublist [CNREvent.storageDone, CNREvent.ret] cnrEarlyReturnTrace :=
  ⟨⟨by decide, by decide⟩, by decide⟩

/-- C2, amended: in every valid trace createNeededResources returns
only after the resource-group, virtual-network and subnet creations
have confirmed success; the storage-account path runs concurrently and
is not joined before return. -/
theorem createNeededResources_returns_after_subnet :
    ∀ t : List CNREvent, ValidCNRTrace t →
      List.Sublist
        [CNREvent.rgCreate, CNREvent.vnetDone, CNREvent.subnetDone, CNREvent.ret] t := by
  intro t ht
  have hmain : List.Sublist cnrMainSeq t :=
    interleaves_sublist_left t cnrMainSeq cnrStorageSeq ht.1
  exact List.Sublist.trans (by decide) hmain

/-- C2, witness: the amended property on a concrete valid trace. -/
theorem createNeededResources_returns_after_subnet_witness :
    ValidCNRTrace cnrJoinedTrace ∧
      List.Sublist
        [CNREvent.rgCreate, CNREvent.vnetDone, CNREvent.subnetDone, CNREvent.ret]
        cnrJoinedTrace :=
  ⟨⟨by decide, by decide⟩,
   createNeededResources_returns_after_subnet cnrJoinedTrace ⟨by decide, by decide⟩⟩

/-- C3, counterexample: a valid complete trace of the creation and
operations phases in which the Windows get call (a VM-operation call)
is issued while the Linux createVM goroutine has not yet completed,
refuting the claim that the operations phase starts only after both
creations finish. -/
theorem main_ops_before_linux_create_cex :
    ValidMainTrace mainSlowLinuxTrace ∧
      MainEvent.wVMGet ∈ vmOperationCallEvents ∧
      ¬ List.Sublist [MainEvent.lVMCreate, MainEvent.wVMGet] mainSlowLinuxTrace :=
  ⟨⟨mainSlowLinuxU, by decide, by decide, by decide, by decide⟩, by decide, by decide⟩

/-- C3, amended: in every valid trace no VM-operation call at all —
neither a Windows one issued by the main goroutine nor a Linux one
issued by the operations goroutine spawned after the synchronous
Windows creation — is issued before the Windows createVM sequence has
completed; the Linux createVM goroutine is never joined, so the Linux
creation gives no such barrier. -/
theorem main_windows_creation_barrier :
    ∀ t : List MainEvent, ValidMainTrace t →
      ∀ op : MainEvent, op ∈ vmOperationCallEvents →
        List.Sublist [MainEvent.wVMCreate, op] t := by
  intro t ht op hop
  obtain ⟨u, h1, h2, _, hsp2⟩ := ht
  have hu : List.Sublist mainThreadSeq u :=
    interleaves_sublist_left u mainThreadSeq linuxCreateSeq h1
  have ht2 : List.Sublist u t := interleaves_sublist_left t u linuxOpsSeq h2
  have hmain : List.Sublist mainThreadSeq t := List.Sublist.trans hu ht2
  have hsplit : op ∈ windowsOpCallEvents ∨ op ∈ linuxOpsSeq := by
    have he : vmOperationCallEvents = windowsOpCallEvents ++ linuxOpsSeq := by decide
    rw [he] at hop
    exact List.mem_append.mp hop
  rcases hsplit with hw | hl
  · have hall : ∀ o ∈ windowsOpCallEvents,
        List.Sublist [MainEvent.wVMCreate, o] mainThreadSeq := by decide
    exact List.Sublist.trans (hall op hw) hmain
  · have hperm : List.Perm t ((mainThreadSeq ++ linuxCreateSeq) ++ linuxOpsSeq) := by
      have p1 : List.Perm u (mainThreadSeq ++ linuxCreateSeq) :=
        interleaves_perm u mainThreadSeq linuxCreateSeq h1
      have p2 : List.Perm t (u ++ linuxOpsSeq) := interleaves_perm t u linuxOpsSeq h2
      exact List.Perm.trans p2 (p1.append_right linuxOpsSeq)
    have hnodup : t.Nodup := hperm.nodup_iff.mpr (by decide)
    have hlops : List.Sublist linuxOpsSeq t :=
      interleaves_sublist_right t u linuxOpsSeq h2
    have h_w_spawn : List.Sublist [MainEvent.wVMCreate, MainEvent.spawnLinuxOps] t :=
      List.Sublist.trans (by decide) hmain
    have h_w_get : List.Sublist [MainEvent.wVMCreate, MainEvent.lVMGet] t :=
      sublist_pair_trans t hnodup h_w_spawn hsp2
    have hall2 : ∀ o ∈ linuxOpsSeq,
        o = MainEvent.lVMGet ∨ List.Sublist [MainEvent.lVMGet, o] linuxOpsSeq := by decide
    rcases hall2 op hl with rfl | hpair
    · exact h_w_get
    · exact sublist_pair_trans t hnodup h_w_get (List.Sublist.trans hpair hlops)

/-- C3, witness: the amended barrier on a concrete valid trace, at the
Linux get call of the operations goroutine. -/
theorem main_windows_creation_barrier_witness :
    ValidMainTrace mainJoinedTrace ∧
      MainEvent.lVMGet ∈ vmOperationCallEvents ∧
      List.Sublist [MainEvent.wVMCreate, MainEvent.lVMGet] mainJoinedTrace :=
  ⟨⟨mainJoinedU, by decide, by decide, by decide, by decide⟩, by decide,
   main_windows_creation_barrier mainJoinedTrace
     ⟨mainJoinedU, by decide, by decide, by decide, by decide⟩
     MainEvent.lVMGet (by decide)⟩

/-- C4, counterexample: in the execution where the per-VM deletion
fails, the process exits with status 1 and the resource-group deletion
is never attempted, because os.Exit does not run the deferred call. -/
theorem groupDelete_skipped_on_exit_cex :
    failsAtVMDelete APICall.vmDelete = true ∧
      (runMain failsAtVMDelete).2 = 1 ∧
      ¬ APICall.rgDelete ∈ (runMain failsAtVMDelete).1 := by
  decide

/-- C4, amended: on the fully successful execution the resource-group
deletion is the final action (the deferred deletion fires at normal
return, after the explicit one); but in an execution whose only failure
is the per-VM deletion, the process exits with status 1 without
attempting any resource-group deletion, since os.Exit skips the
deferred call. -/
theorem groupDelete_teardown :
    (runMain (fun _ => false) = (mainBody ++ [APICall.rgDelete], 0) ∧
     (runMain (fun _ => false)).1.getLast? = some APICall.rgDelete) ∧
    (∀ fails : APICall → Bool,
      (∀ c ∈ mainCallsBeforeDelete, fails c = false) → fails APICall.vmDelete = true →
        runMain fails = (mainCallsBeforeDelete ++ [APICall.vmDelete], 1) ∧
        ¬ APICall.rgDelete ∈ (runMain fails).1) := by
  refine ⟨⟨by decide, by decide⟩, ?_⟩
  intro fails hpre hdel
  have e01 : fails APICall.rgCreate = false := hpre _ (by decide)
  have e02 : fails APICall.vnetCreate = false := hpre _ (by decide)
  have e03 : fails APICall.subnetCreate = false := hpre _ (by decide)
  have e04 : fails APICall.subnetGet = false := hpre _ (by decide)
  have e05 : fails APICall.pipCreate = false := hpre _ (by decide)
  have e06 : fails APICall.pipGet = false := hpre _ (by decide)
  have e07 : fails APICall.nicCreate = false := hpre _ (by decide)
  have e08 : fails APICall.nicGet = false := hpre _ (by decide)
  have e09 : fails APICall.vmCreate = false := hpre _ (by decide)
  have e10 : fails APICall.vmGet = false := hpre _ (by decide)
  have e11 : fails APICall.vmUpdateTags = false := hpre _ (by decide)
  have e12 : fails APICall.vmAttachDisk = false := hpre _ (by decide)
  have e13 : fails APICall.vmDetachDisks = false := hpre _ (by decide)
  have e14 : fails APICall.vmDeallocate = false := hpre _ (by decide)
  have e15 : fails APICall.vmUpdateSize = false := hpre _ (by decide)
  have e16 : fails APICall.vmStart = false := hpre _ (by decide)
  have e17 : fails APICall.vmRestart = false := hpre _ (by decide)
  have e18 : fails APICall.vmPowerOff = false := hpre _ (by decide)
  have e19 : fails APICall.listAll = false := hpre _ (by decide)
  have hrun : runMain fails = (mainCallsBeforeDelete ++ [APICall.vmDelete], 1) := by
    simp [runMain, runChain, mainBody, mainCallsBeforeDelete,
      e01, e02, e03, e04, e05, e06, e07, e08, e09, e10,
      e11, e12, e13, e14, e15, e16, e17, e18, e19, hdel]
  refine ⟨hrun, ?_⟩
  rw [hrun]
  decide

/-- C4, witness: the amended failure half evaluated at the oracle in
which exactly the per-VM deletion fails. -/
theorem groupDelete_teardown_witness :
    ((∀ c ∈ mainCallsBeforeDelete, failsAtVMDelete c = false) ∧
      failsAtVMDelete APICall.vmDelete = true) ∧
      runMain failsAtVMDelete = (mainCallsBeforeDelete ++ [APICall.vmDelete], 1) ∧
      ¬ APICall.rgDelete ∈ (runMain failsAtVMDelete).1 :=
  ⟨⟨by decide, by decide⟩,
   (groupDelete_teardown.2 failsAtVMDelete (by decide) (by decide)).1,
   (groupDelete_teardown.2 failsAtVMDelete (by decide) (by decide)).2⟩

/-- C8: the code bug in onErrorFail evaluated at a failing input: the
variadic slice is passed to Sprintf as a single operand instead of
being spread, so the printed context is CreateOrUpdate [linuxVM]
failed instead of CreateOrUpdate linuxVM failed; the exit status and
the one-line colon format are as claimed, and a nil error produces no
output. -/
theorem onErrorFail_format_bug :
    onErrorFail_output (some "boom") "CreateOrUpdate \x27%s\x27 failed" ["linuxVM"] =
      some ("CreateOrUpdate \x27[linuxVM]\x27 failed: boom\n", 1) ∧
    specOnErrorFail_line "boom" "CreateOrUpdate \x27%s\x27 failed" ["linuxVM"] =
      "CreateOrUpdate \x27linuxVM\x27 failed: boom\n" ∧
    ¬ onErrorFail_line "boom" "CreateOrUpdate \x27%s\x27 failed" ["linuxVM"] =
      specOnErrorFail_line "boom" "CreateOrUpdate \x27%s\x27 failed" ["linuxVM"] ∧
    onErrorFail_output none "CreateOrUpdate \x27%s\x27 failed" ["linuxVM"] = none := by
  decide

/-- C9: createPIPandNIC derives the DNS label azuresample- followed by
the lowercased first five characters of the machine name; names
shorter than five characters make the slice out of bounds, and the two
names used by the program are long enough (yielding azuresample-linux
and azuresample-windo). -/
theorem createPIPandNIC_dnsLabel_spec :
    (∀ m : String, 5 ≤ m.length →
      createPIPandNIC_dnsLabel m = some ("azuresample-" ++ goToLower (goTake m 5))) ∧
    (∀ m : String, m.length < 5 → createPIPandNIC_dnsLabel m = none) ∧
    createPIPandNIC_dnsLabel linuxVMname = some "azuresample-linux" ∧
    createPIPandNIC_dnsLabel windowsVMname = some "azuresample-windo" := by
  refine ⟨?_, ?_, by decide, by decide⟩
  · intro m hm
    unfold createPIPandNIC_dnsLabel
    rw [if_pos hm, goSprintf_azuresample]
  · intro m hm
    unfold createPIPandNIC_dnsLabel
    rw [if_neg (by omega)]

/-- C9, witness: the label rule evaluated at the Windows VM name. -/
theorem createPIPandNIC_dnsLabel_spec_witness :
    5 ≤ ("windowsVM" : String).length ∧
      createPIPandNIC_dnsLabel "windowsVM" =
        some ("azuresample-" ++ goToLower (goTake "windowsVM" 5)) :=
  ⟨by decide, createPIPandNIC_dnsLabel_spec.1 "windowsVM" (by decide)⟩

/-- C10: getEnvVarOrExit treats a variable set to the empty string
exactly like an absent one: whenever the looked-up value is empty it
prints the missing-variable message and exits with status 1, and
otherwise it returns the value unchanged. -/
theorem getEnvVarOrExit_spec :
    ∀ (env : String → String) (varName : String),
      (env varName = "" →
        getEnvVarOrExit env varName =
          Except.error ("Missing environment variable " ++ varName ++ "\n", 1)) ∧
      (¬ env varName = "" → getEnvVarOrExit env varName = Except.ok (env varName)) := by
  intro env varName
  constructor
  · intro h
    unfold getEnvVarOrExit
    rw [if_pos h, goSprintf_missing_env]
  · intro h
    unfold getEnvVarOrExit
    rw [if_neg h]

/-- C10, witness: the rule evaluated at a concrete environment with one
set variable, at one empty and one non-empty lookup. -/
theorem getEnvVarOrExit_spec_witness :
    (envWitness "AZURE_TENANT_ID" = "" ∧
      getEnvVarOrExit envWitness "AZURE_TENANT_ID" =
        Except.error ("Missing environment variable " ++ "AZURE_TENANT_ID" ++ "\n", 1)) ∧
    (¬ envWitness "AZURE_SUBSCRIPTION_ID" = "" ∧
      getEnvVarOrExit envWitness "AZURE_SUBSCRIPTION_ID" =
        Except.ok (envWitness "AZURE_SUBSCRIPTION_ID")) :=
  ⟨⟨by decide, (getEnvVarOrExit_spec envWitness "AZURE_TENANT_ID").1 (by decide)⟩,
   ⟨by decide, (getEnvVarOrExit_spec envWitness "AZURE_SUBSCRIPTION_ID").2 (by decide)⟩⟩
